import Mathlib

/-!
Verification of the AgentGuard scanner core (`agentguard/scanner/core.py`,
`agentguard/cli/main.py`) against its natural-language specification.

The Python scanner applies compiled regular expressions (with `re.IGNORECASE`)
line by line over file content.  All five built-in patterns are built from
literals, character classes, greedy stars of character classes, optional
character classes and ordered alternation, so they are embedded here as a
small backtracking (continuation-passing) matcher whose preference order is
the same as CPython's `re` engine: alternatives left to right, stars greedy.
Case-insensitivity and whitespace classes are modelled over the ASCII range,
which covers every character appearing in the built-in patterns.
-/

/-- ASCII lower-case letter test (`a`-`z`), by code point. -/
def isLowerA (c : Char) : Bool := 97 ≤ c.toNat && c.toNat ≤ 122

/-- ASCII upper-case letter test (`A`-`Z`), by code point. -/
def isUpperA (c : Char) : Bool := 65 ≤ c.toNat && c.toNat ≤ 90

/-- ASCII digit test (`0`-`9`), by code point. -/
def isDigitA (c : Char) : Bool := 48 ≤ c.toNat && c.toNat ≤ 57

/-- ASCII case folding used by `re.IGNORECASE` on the pattern alphabet:
upper-case letters map to lower case, all other characters are fixed. -/
def lcAscii (c : Char) : Char :=
  if isUpperA c then Char.ofNat (c.toNat + 32) else c

/-- Swap the case of an ASCII letter; all other characters are fixed.
Used to state the case-insensitivity property. -/
def swapCase (c : Char) : Char :=
  if isUpperA c then Char.ofNat (c.toNat + 32)
  else if isLowerA c then Char.ofNat (c.toNat - 32)
  else c

/-- Whitespace characters recognised by the regex class `\s` and by Python's
`str.strip`, restricted to the ASCII range. -/
def isPySpace (c : Char) : Bool :=
  c = ' ' || c = '\t' || c = '\n' || c = '\r' || c = '\x0b' || c = '\x0c'

/-- Python `str.strip()` on a list of characters: drop leading and trailing
whitespace. -/
def pyStrip (s : List Char) : List Char :=
  ((s.dropWhile isPySpace).reverse.dropWhile isPySpace).reverse

/-- Regular expressions as they occur in the five built-in rules: the empty
pattern, a single-character class, a greedy star of a character class,
sequencing, and ordered alternation. -/
inductive RE where
  | eps : RE
  | cls : (Char → Bool) → RE
  | starCls : (Char → Bool) → RE
  | seq : RE → RE → RE
  | alt : RE → RE → RE

/-- Length of the maximal prefix of `s` whose characters satisfy `p`
(how far a greedy star of class `p` can reach). -/
def countWhile (p : Char → Bool) : List Char → Nat
  | [] => 0
  | c :: t => if p c then countWhile p t + 1 else 0

/-- Greedy backtracking for a star of a character class: try consuming
`n` characters first, then `n-1`, ..., down to `0`. -/
def tryDrops (k : List Char → Option (List Char)) (s : List Char) : Nat → Option (List Char)
  | 0 => k s
  | n + 1 => (k (s.drop (n + 1))).orElse (fun _ => tryDrops k s n)

/-- The backtracking matcher in continuation-passing style.  `reMatch r s k`
attempts to match `r` against a prefix of `s`, calling `k` on the remainder;
choices are explored in CPython `re`'s preference order (alternation left to
right, stars greedy), so the first success is the match `re` would report. -/
def reMatch : RE → List Char → (List Char → Option (List Char)) → Option (List Char)
  | .eps, s, k => k s
  | .cls p, s, k =>
    match s with
    | [] => none
    | c :: t => if p c then k t else none
  | .starCls p, s, k => tryDrops k s (countWhile p s)
  | .seq a b, s, k => reMatch a s (fun t => reMatch b t k)
  | .alt a b, s, k => (reMatch a s k).orElse (fun _ => reMatch b s k)

/-- `re.finditer` over a single line: scan left to right; at each position
report the preference-first match if one starts there, then resume after its
end (or one character further for an empty match).  `fuel` bounds the number
of iterations; `finditer` supplies enough for the whole line.  Matches are
returned as 0-based `(start, end)` offset pairs. -/
def finditerAux (r : RE) : Nat → List Char → Nat → List (Nat × Nat)
  | 0, _, _ => []
  | fuel + 1, s, pos =>
    match reMatch r s some, s with
    | some _, [] => [(pos, pos)]
    | some rest, c :: t =>
      if (c :: t).length - rest.length = 0 then
        (pos, pos) :: finditerAux r fuel t (pos + 1)
      else
        (pos, pos + ((c :: t).length - rest.length)) ::
          finditerAux r fuel ((c :: t).drop ((c :: t).length - rest.length))
            (pos + ((c :: t).length - rest.length))
    | none, [] => []
    | none, _ :: t => finditerAux r fuel t (pos + 1)

/-- All non-overlapping matches of `r` in `s`, leftmost first, as 0-based
`(start, end)` pairs — the embedding of `pattern.finditer(line)`. -/
def finditer (r : RE) (s : List Char) : List (Nat × Nat) :=
  finditerAux r (s.length + 1) s 0

/-- Sequence a list of regexes. -/
def seqs (l : List RE) : RE := l.foldr RE.seq RE.eps

/-- Ordered alternation over a list of regexes (first alternative preferred). -/
def alts (l : List RE) : RE := l.foldr RE.alt (RE.cls fun _ => false)

/-- A single pattern character under `re.IGNORECASE`: matches any character
with the same ASCII case folding. -/
def ichar (c : Char) : RE := .cls (fun x => lcAscii x = lcAscii c)

/-- A literal string under `re.IGNORECASE`. -/
def istr (s : String) : RE := seqs (s.data.map ichar)

/-- The class `[=:]`. -/
def eqColonCls : RE := .cls (fun c => c = '=' || c = ':')

/-- The class `["\']`. -/
def quoteCls : RE := .cls (fun c => c = '"' || c = '\'')

/-- The character test of `.` (any character except a newline). -/
def dotChar (c : Char) : Bool := !(c = '\n')

/-- Greedy `.*`. -/
def dotStar : RE := .starCls dotChar

/-- Greedy `\s*`. -/
def wsStar : RE := .starCls isPySpace

/-- The character class `[a-zA-Z0-9_-]`. -/
def wordDashChar (c : Char) : Bool :=
  isLowerA c || isUpperA c || isDigitA c || c = '_' || c = '-'

/-- Severities, most severe first (enum `Severity` in `core.py`). -/
inductive Severity where
  | critical | high | medium | low | info
deriving DecidableEq, Repr

/-- The `.value` string of a severity. -/
def Severity.value : Severity → String
  | .critical => "critical"
  | .high => "high"
  | .medium => "medium"
  | .low => "low"
  | .info => "info"

/-- Rule categories (enum `RuleCategory` in `core.py`). -/
inductive RuleCategory where
  | prompt_injection | secrets | permissions | file_access | network | memory
deriving DecidableEq, Repr

/-- The `.value` string of a category. -/
def RuleCategory.value : RuleCategory → String
  | .prompt_injection => "prompt_injection"
  | .secrets => "secrets"
  | .permissions => "permissions"
  | .file_access => "file_access"
  | .network => "network"
  | .memory => "memory"

/-- A security finding (dataclass `Finding` in `core.py`). -/
structure Finding where
  rule_id : String
  rule_name : String
  category : RuleCategory
  severity : Severity
  message : String
  file_path : String
  line_number : Nat
  column : Nat
  snippet : String
  remediation : String
  references : List String
deriving DecidableEq, Repr

/-- A pattern-based rule (class `PatternRule` in `core.py`); `pattern` is the
compiled, case-insensitive regex. -/
structure PatternRule where
  rule_id : String
  name : String
  description : String
  category : RuleCategory
  severity : Severity
  pattern : RE
  remediation : String
  references : List String
  message_template : String

/-- `message_template.format(category=cat)` for the templates of the built-in
rules, whose only placeholder is `{category}`: replace every occurrence of
the placeholder by `cat`, leave everything else unchanged. -/
def replaceCategory (cat : List Char) : List Char → List Char
  | '\x7b' :: 'c' :: 'a' :: 't' :: 'e' :: 'g' :: 'o' :: 'r' :: 'y' :: '\x7d' :: rest =>
    cat ++ replaceCategory cat rest
  | c :: t => c :: replaceCategory cat t
  | [] => []

/-- Python `str.split(sep)` for a single-character separator: cut the
character sequence at every occurrence of `sep`, keeping empty pieces
(one more piece than there are separators). -/
def splitOnChar (sep : Char) (s : List Char) : List (List Char) :=
  match s with
  | [] => [[]]
  | c :: t =>
    match splitOnChar sep t with
    | [] => [[]]
    | l :: ls => if c = sep then [] :: l :: ls else (c :: l) :: ls

/-- Python `content.split("\n")`. -/
def splitLines (s : List Char) : List (List Char) := splitOnChar '\n' s

/-- Build the `Finding` appended by `PatternRule.check` for a match `m`
(0-based `(start, end)`) on line `line` with 1-based number `line_num`. -/
def mkFinding (r : PatternRule) (file_path : String) (line : List Char)
    (line_num : Nat) (m : Nat × Nat) : Finding :=
  { rule_id := r.rule_id
    rule_name := r.name
    category := r.category
    severity := r.severity
    message := String.mk (replaceCategory r.category.value.data r.message_template.data)
    file_path := file_path
    line_number := line_num
    column := m.1 + 1
    snippet := String.mk ((pyStrip line).take 100)
    remediation := r.remediation
    references := r.references }

/-- The line loop of `PatternRule.check`: `for line_num, line in
enumerate(lines, start)`, appending one finding per match per line. -/
def checkLines (r : PatternRule) (file_path : String) :
    List (List Char) → Nat → List Finding
  | [], _ => []
  | line :: rest, line_num =>
    (finditer r.pattern line).map (mkFinding r file_path line line_num) ++
      checkLines r file_path rest (line_num + 1)

/-- `PatternRule.check(content, file_path)`: split on newlines, enumerate
lines from 1, report every match of the pattern on every line. -/
def PatternRule.check (r : PatternRule) (content : String) (file_path : String) :
    List Finding :=
  checkLines r file_path (splitLines content.data) 1

/-- Rule AG-001, "Prompt Injection Vector": pattern
`(system_prompt|system|prompt)\s*[=:]\s*["\'].*(\{user_input|\{input|\{\{|%s|%d|\$\{)`. -/
def AG001 : PatternRule :=
  { rule_id := "AG-001"
    name := "Prompt Injection Vector"
    description := "User input is being directly concatenated into system prompts without sanitization"
    category := .prompt_injection
    severity := .critical
    pattern := seqs
      [ alts [istr "system_prompt", istr "system", istr "prompt"]
      , wsStar, eqColonCls, wsStar, quoteCls, dotStar
      , alts [istr "\x7buser_input", istr "\x7binput", istr "\x7b\x7b",
              istr "%s", istr "%d", istr "$\x7b"] ]
    remediation := "Use prompt templates with strict parameter validation. Never concatenate user input directly into system prompts."
    references :=
      [ "https://owasp.org/www-project-llm-top-10/"
      , "https://portswigger.net/web-security/llm-attacks" ]
    message_template := "Potential prompt injection: User input concatenated in system prompt" }

/-- Rule AG-002, "Hardcoded API Key": pattern
`(api[_-]?key|apikey|token|secret|password)\s*[=:]\s*["\'][a-zA-Z0-9_-]{20,}["\']`. -/
def AG002 : PatternRule :=
  { rule_id := "AG-002"
    name := "Hardcoded API Key"
    description := "API keys or secrets are hardcoded in configuration"
    category := .secrets
    severity := .critical
    pattern := seqs
      [ alts [ seqs [istr "api", RE.alt (.cls fun c => c = '_' || c = '-') .eps, istr "key"]
             , istr "apikey", istr "token", istr "secret", istr "password" ]
      , wsStar, eqColonCls, wsStar, quoteCls
      , seqs (List.replicate 20 (RE.cls wordDashChar))
      , RE.starCls wordDashChar
      , quoteCls ]
    remediation := "Use environment variables or a secrets manager. Never hardcode credentials."
    references :=
      [ "https://cheatsheetseries.owasp.org/cheatsheets/Secrets_Management_Cheat_Sheet.html" ]
    message_template := "Hardcoded credential detected: \x7bcategory\x7d" }

/-- Rule AG-003, "Unrestricted Tool Permissions": pattern
`(allow_all|unrestricted|bypass.*auth|disable.*check)`. -/
def AG003 : PatternRule :=
  { rule_id := "AG-003"
    name := "Unrestricted Tool Permissions"
    description := "Tools have excessive permissions without validation"
    category := .permissions
    severity := .high
    pattern := alts
      [ istr "allow_all", istr "unrestricted"
      , seqs [istr "bypass", dotStar, istr "auth"]
      , seqs [istr "disable", dotStar, istr "check"] ]
    remediation := "Implement least privilege principle. Validate all tool invocations."
    references := [ "https://owasp.org/www-project-top-10/" ]
    message_template := "Excessive permissions detected: \x7bcategory\x7d" }

/-- Rule AG-004, "Unrestricted File System Access": pattern
`(read_file|write_file|delete_file)\s*[=:]\s*True|allow_all_files|bypass_path_validation`. -/
def AG004 : PatternRule :=
  { rule_id := "AG-004"
    name := "Unrestricted File System Access"
    description := "File system operations without path validation"
    category := .file_access
    severity := .high
    pattern := alts
      [ seqs [ alts [istr "read_file", istr "write_file", istr "delete_file"]
             , wsStar, eqColonCls, wsStar, istr "True" ]
      , istr "allow_all_files"
      , istr "bypass_path_validation" ]
    remediation := "Validate all file paths against allowed directories. Use path canonicalization."
    references := [ "https://owasp.org/www-community/attacks/Path_Traversal" ]
    message_template := "Unrestricted file access: \x7bcategory\x7d" }

/-- Rule AG-005, "Potential Data Exfiltration": pattern
`(http://|https://|fetch\(|requests\.|urllib)`. -/
def AG005 : PatternRule :=
  { rule_id := "AG-005"
    name := "Potential Data Exfiltration"
    description := "Tools can send data to external URLs without validation"
    category := .network
    severity := .medium
    pattern := alts
      [ istr "http://", istr "https://", istr "fetch("
      , istr "requests.", istr "urllib" ]
    remediation := "Validate all external URLs against an allowlist. Log all outbound requests."
    references := [ "https://owasp.org/www-project-top-10/" ]
    message_template := "External network access detected: \x7bcategory\x7d" }

/-- The built-in rule registry `RULES`, in registration order. -/
def RULES : List PatternRule := [AG001, AG002, AG003, AG004, AG005]

/-- The result of scanning one file (dataclass `ScanResult` in `core.py`).
The wall-clock fields `scanned_at` and `duration_ms` are environment inputs
(clock reads) and are not modelled. -/
structure ScanResult where
  file_path : String
  findings : List Finding
deriving DecidableEq, Repr

/-- A rule as seen by the orchestrator (base class `Rule` in `core.py`): its
`check` method may raise, modelled as `Except`. -/
structure Rule where
  rule_id : String
  check : String → String → Except String (List Finding)

/-- View a `PatternRule` as an orchestrator `Rule`; its `check` never raises. -/
def PatternRule.toRule (r : PatternRule) : Rule :=
  { rule_id := r.rule_id, check := fun content fp => .ok (r.check content fp) }

/-- Errors that `scan_file` can surface: `FileNotFoundError`, or a failure
while reading/decoding the file. -/
inductive ScanError where
  | notFound (msg : String)
  | readError (msg : String)
deriving DecidableEq, Repr

/-- Whether a `ScanError` is the not-found kind. -/
def ScanError.isNotFound : ScanError → Bool
  | .notFound _ => true
  | .readError _ => false

/-- The filesystem as seen by the scanner: existence of a path, the result of
reading a path as UTF-8 text (which may fail for an unreadable or undecodable
file), and the recursive listing `Path(dir).rglob("*")` with each entry's
`is_file()` status. -/
structure DirEntry where
  path : String
  isFile : Bool
deriving DecidableEq, Repr

structure FileSystem where
  pathExists : String → Bool
  readText : String → Except String String
  rglob : String → List DirEntry

/-- The rule loop of `Scanner.scan_file`: run every rule's `check`, catching
any exception a rule raises (the failing rule contributes no findings), and
concatenate the findings in rule order. -/
def runRules (rules : List Rule) (content : String) (file_path : String) :
    List Finding :=
  rules.foldl
    (fun acc rule =>
      match rule.check content file_path with
      | .ok fnd => acc ++ fnd
      | .error _ => acc)
    []

/-- `Scanner.scan_file`: raise `FileNotFoundError` if the path does not
exist, read the content, run every rule with per-rule exception isolation,
and return the assembled `ScanResult`. -/
def scan_file (rules : List Rule) (fs : FileSystem) (file_path : String) :
    Except ScanError ScanResult :=
  if fs.pathExists file_path then
    match fs.readText file_path with
    | .error e => .error (.readError e)
    | .ok content => .ok { file_path := file_path, findings := runRules rules content file_path }
  else
    .error (.notFound ("File not found: " ++ file_path))

/-- Index of the last occurrence of `c` in `l` (Python `str.rfind`),
`none` when absent. -/
def rfindIdx (c : Char) : List Char → Option Nat
  | [] => none
  | x :: t =>
    match rfindIdx c t with
    | some i => some (i + 1)
    | none => if x = c then some 0 else none

/-- `pathlib.PurePath.suffix`: the extension of the final path component,
including the dot; empty when the name has no dot, starts with its only dot,
or ends with the dot. -/
def pySuffix (p : String) : String :=
  let name := (splitOnChar '/' p.data).getLastD []
  match rfindIdx '.' name with
  | none => ""
  | some i =>
    if 0 < i && i < name.length - 1 then String.mk (name.drop i) else ""

/-- The eligible extensions of `Scanner.scan_directory`. -/
def eligibleExts : List String := [".yaml", ".yml", ".json", ".py"]

/-- Whether a directory entry is scanned: a regular file with an eligible
extension. -/
def eligibleEntry (e : DirEntry) : Bool :=
  e.isFile && eligibleExts.contains (pySuffix e.path)

/-- `Scanner.scan_directory`: walk the recursive listing; for each regular
file with an eligible extension call `scan_file`, appending its result and
catching (skipping) any per-file error. -/
def scan_directory (rules : List Rule) (fs : FileSystem) (directory : String) :
    List ScanResult :=
  (fs.rglob directory).foldl
    (fun results e =>
      if eligibleEntry e then
        match scan_file rules fs e.path with
        | .ok r => results ++ [r]
        | .error _ => results
      else results)
    []

/-- The severity list `severity_order` of the CLI `scan` command. -/
def severity_order : List String := ["critical", "high", "medium", "low", "info"]

/-- The CLI severity filter (`main.py`, `scan`): keep the findings whose
severity value lies in the prefix of `severity_order` ending at the chosen
minimum severity. -/
def filterBySeverity (min_severity : Severity) (findings : List Finding) :
    List Finding :=
  let min_index := severity_order.indexOf min_severity.value
  let allowed := severity_order.take (min_index + 1)
  findings.filter (fun f => allowed.contains f.severity.value)

/-- First 0-based index at which `needle` occurs as a contiguous substring of
the line (Python `str.index`), `none` when absent. -/
def subIndex (needle : List Char) : List Char → Option Nat
  | [] => if needle.isEmpty then some 0 else none
  | h :: t =>
    if needle.isPrefixOf (h :: t) then some 0
    else (subIndex needle t).map (· + 1)

/-- C1: the claim predicts that for the one-line content
`system_prompt = "Hello {user_input}"` the single AG-001 finding has
column = (0-based index of `{user_input`) + 1 = 24.  In the code the column
comes from `match.start() + 1`, and the match of AG-001's pattern begins at
offset 0 (at `system_prompt`), so the column is 1, not 24: scanning with the
built-in registry yields exactly one finding, it is AG-001/critical at
line 1, the substring `{user_input` sits at 0-based index 23, and the
finding's column differs from 23 + 1. -/
theorem c1_registry_scan_counterexample :
    (runRules (RULES.map PatternRule.toRule)
          "system_prompt = \"Hello \x7buser_input\x7d\"" "agent.yaml").map
        (fun f => (f.rule_id, f.severity, f.line_number, f.column)) =
      [("AG-001", Severity.critical, 1, 1)] ∧
    subIndex "\x7buser_input".data
        "system_prompt = \"Hello \x7buser_input\x7d\"".data = some 23 ∧
    ∀ f ∈ runRules (RULES.map PatternRule.toRule)
        "system_prompt = \"Hello \x7buser_input\x7d\"" "agent.yaml",
      ¬ f.column = 23 + 1 := by
  decide

/-- C1 (amended): for the one-line content
`system_prompt = "Hello {user_input}"`, scanning with the built-in registry
produces exactly one finding; it is from rule AG-001 with severity critical,
its line_number is 1, and its column is 1, because the pattern's match starts
at offset 0 of the line (at `system_prompt`), not at the `{user_input`
substring. -/
theorem c1_registry_scan_amended :
    (runRules (RULES.map PatternRule.toRule)
          "system_prompt = \"Hello \x7buser_input\x7d\"" "agent.yaml").map
        (fun f => (f.rule_id, f.severity, f.line_number, f.column)) =
      [("AG-001", Severity.critical, 1, 1)] := by
  decide

/-- Every finding of the line loop comes from a match of the pattern on one
of the lines: it is exactly `mkFinding` applied to the line with index `j`
(0-based in the remaining list) and one of its `finditer` matches, with the
1-based line number `n + j`. -/
theorem mem_checkLines {r : PatternRule} {fp : String} :
    ∀ {lines : List (List Char)} {n : Nat} {f : Finding},
      f ∈ checkLines r fp lines n →
      ∃ j line m, lines[j]? = some line ∧ m ∈ finditer r.pattern line ∧
        f = mkFinding r fp line (n + j) m := by
  intro lines
  induction lines with
  | nil => intro n f h; simp [checkLines] at h
  | cons line rest ih =>
    intro n f h
    simp only [checkLines, List.mem_append, List.mem_map] at h
    rcases h with ⟨m, hm, rfl⟩ | h
    · exact ⟨0, line, m, by simp, hm, by simp⟩
    · obtain ⟨j, line', m, hj, hm, hf⟩ := ih h
      have harith : n + 1 + j = n + (j + 1) := by omega
      rw [harith] at hf
      exact ⟨j + 1, line', m, by simpa using hj, hm, hf⟩

/-- C2: every finding produced by `PatternRule.check` has a column equal to
the 0-based character offset of its match's start within the original,
unstripped line plus 1, so every finding has column ≥ 1 and
line_number ≥ 1. -/
theorem c2_column_is_match_start_succ (r : PatternRule) (content file_path : String)
    (f : Finding) (hf : f ∈ r.check content file_path) :
    1 ≤ f.column ∧ 1 ≤ f.line_number ∧
    ∃ line, (splitLines content.data)[f.line_number - 1]? = some line ∧
      ∃ m ∈ finditer r.pattern line, f.column = m.1 + 1 := by
  obtain ⟨j, line, m, hj, hm, rfl⟩ := mem_checkLines hf
  refine ⟨by simp [mkFinding], by simp [mkFinding], line, ?_, m, hm, rfl⟩
  simpa [mkFinding] using hj

/-- C2 witness: the AG-001 finding for the prompt-injection scenario line
satisfies the column/line-number property. -/
theorem c2_column_is_match_start_succ_witness :
    1 ≤ (mkFinding AG001 "agent.yaml"
          "system_prompt = \"Hello \x7buser_input\x7d\"".data 1 (0, 34)).column ∧
    1 ≤ (mkFinding AG001 "agent.yaml"
          "system_prompt = \"Hello \x7buser_input\x7d\"".data 1 (0, 34)).line_number ∧
    ∃ line,
      (splitLines "system_prompt = \"Hello \x7buser_input\x7d\"".data)[
        (mkFinding AG001 "agent.yaml"
          "system_prompt = \"Hello \x7buser_input\x7d\"".data 1 (0, 34)).line_number - 1]? =
        some line ∧
      ∃ m ∈ finditer AG001.pattern line,
        (mkFinding AG001 "agent.yaml"
          "system_prompt = \"Hello \x7buser_input\x7d\"".data 1 (0, 34)).column = m.1 + 1 :=
  c2_column_is_match_start_succ AG001
    "system_prompt = \"Hello \x7buser_input\x7d\"" "agent.yaml" _ (by decide)

/-- C4: every finding's snippet is the matched line with leading and trailing
whitespace stripped and then truncated to at most 100 characters (truncation
applied to the stripped line, never to the raw line first), so the snippet
never exceeds 100 characters. -/
theorem c4_snippet_strip_then_truncate (r : PatternRule) (content file_path : String)
    (f : Finding) (hf : f ∈ r.check content file_path) :
    ∃ line, (splitLines content.data)[f.line_number - 1]? = some line ∧
      f.snippet = String.mk ((pyStrip line).take 100) ∧
      f.snippet.length ≤ 100 := by
  obtain ⟨j, line, m, hj, _, rfl⟩ := mem_checkLines hf
  refine ⟨line, by simpa [mkFinding] using hj, rfl, ?_⟩
  simp [mkFinding, String.length]

/-- C4 witness: the snippet property for the AG-001 finding of the
prompt-injection scenario line. -/
theorem c4_snippet_strip_then_truncate_witness :
    ∃ line,
      (splitLines "system_prompt = \"Hello \x7buser_input\x7d\"".data)[
        (mkFinding AG001 "agent.yaml"
          "system_prompt = \"Hello \x7buser_input\x7d\"".data 1 (0, 34)).line_number - 1]? =
        some line ∧
      (mkFinding AG001 "agent.yaml"
        "system_prompt = \"Hello \x7buser_input\x7d\"".data 1 (0, 34)).snippet =
        String.mk ((pyStrip line).take 100) ∧
      (mkFinding AG001 "agent.yaml"
        "system_prompt = \"Hello \x7buser_input\x7d\"".data 1 (0, 34)).snippet.length ≤ 100 :=
  c4_snippet_strip_then_truncate AG001
    "system_prompt = \"Hello \x7buser_input\x7d\"" "agent.yaml" _ (by decide)

/-- C10: `PatternRule.check` is deterministic — equal content and file path
give equal finding lists — and every finding it returns carries the
`file_path` argument and the invoked rule's id, severity, category,
remediation and references unchanged. -/
theorem c10_check_pure_and_copies_rule_fields (r : PatternRule)
    (content₁ content₂ file_path₁ file_path₂ : String)
    (hc : content₁ = content₂) (hp : file_path₁ = file_path₂) :
    r.check content₁ file_path₁ = r.check content₂ file_path₂ ∧
    ∀ f ∈ r.check content₁ file_path₁,
      f.file_path = file_path₁ ∧ f.rule_id = r.rule_id ∧
      f.severity = r.severity ∧ f.category = r.category ∧
      f.remediation = r.remediation ∧ f.references = r.references := by
  subst hc; subst hp
  refine ⟨rfl, fun f hf => ?_⟩
  obtain ⟨j, line, m, _, _, rfl⟩ := mem_checkLines hf
  exact ⟨rfl, rfl, rfl, rfl, rfl, rfl⟩

/-- C10 witness: instantiated on the prompt-injection scenario line. -/
theorem c10_check_pure_and_copies_rule_fields_witness :
    AG001.check "system_prompt = \"Hello \x7buser_input\x7d\"" "agent.yaml" =
      AG001.check "system_prompt = \"Hello \x7buser_input\x7d\"" "agent.yaml" ∧
    ∀ f ∈ AG001.check "system_prompt = \"Hello \x7buser_input\x7d\"" "agent.yaml",
      f.file_path = "agent.yaml" ∧ f.rule_id = AG001.rule_id ∧
      f.severity = AG001.severity ∧ f.category = AG001.category ∧
      f.remediation = AG001.remediation ∧ f.references = AG001.references :=
  c10_check_pure_and_copies_rule_fields AG001 _ _ _ _ rfl rfl

/-- Numeric rank of a severity: position in `severity_order`
(0 = most severe). -/
def severityRank : Severity → Nat
  | .critical => 0
  | .high => 1
  | .medium => 2
  | .low => 3
  | .info => 4

/-- The index of a severity's value string in `severity_order` is its rank. -/
theorem indexOf_severity_value (t : Severity) :
    severity_order.indexOf t.value = severityRank t := by
  cases t <;> decide

/-- Membership of a severity value in the allowed prefix of `severity_order`
for threshold `t` is exactly the rank comparison. -/
theorem allowed_mem_iff (t sv : Severity) :
    sv.value ∈ severity_order.take (severity_order.indexOf t.value + 1) ↔
      severityRank sv ≤ severityRank t := by
  cases t <;> cases sv <;> decide

/-- C9: severity filtering retains exactly the findings whose severity rank
is at or above the threshold — the filtered list is the sublist of findings
with `severityRank ≤ severityRank x`, in order, so every at-or-above finding
is retained and nothing else — and it is monotonic: when `y` is at most as
severe as `x` (so `y` sits no earlier than `x` in `severity_order`),
filtering with `y` and then with `x` equals filtering directly with `x`, and
every finding that survives the `x` filter also survives the `y` filter. -/
theorem c9_severity_filter_monotone (x y : Severity) (findings : List Finding)
    (h : severity_order.indexOf x.value ≤ severity_order.indexOf y.value) :
    filterBySeverity x findings =
      findings.filter (fun f => decide (severityRank f.severity ≤ severityRank x)) ∧
    filterBySeverity x (filterBySeverity y findings) = filterBySeverity x findings ∧
    (∀ f ∈ filterBySeverity x findings, severityRank f.severity ≤ severityRank x) ∧
    ∀ f ∈ filterBySeverity x findings, f ∈ filterBySeverity y findings := by
  rw [indexOf_severity_value, indexOf_severity_value] at h
  have key : ∀ sv : Severity,
      sv.value ∈ severity_order.take (severity_order.indexOf x.value + 1) →
      sv.value ∈ severity_order.take (severity_order.indexOf y.value + 1) := by
    intro sv hx
    rw [allowed_mem_iff] at hx ⊢
    omega
  refine ⟨?_, ?_, ?_, ?_⟩
  · simp only [filterBySeverity]
    apply List.filter_congr
    intro f _
    simp only [List.contains, List.elem_eq_mem, decide_eq_decide]
    exact allowed_mem_iff x f.severity
  · simp only [filterBySeverity, List.filter_filter]
    apply List.filter_congr
    intro a _
    by_cases hx : a.severity.value ∈
        severity_order.take (severity_order.indexOf x.value + 1)
    · have hy := key a.severity hx
      simp [List.contains, List.elem_eq_mem, hx, hy]
    · simp [List.contains, List.elem_eq_mem, hx]
  · intro f hf
    simp only [filterBySeverity, List.mem_filter, List.contains,
      List.elem_eq_mem, decide_eq_true_eq] at hf
    exact (allowed_mem_iff x f.severity).mp hf.2
  · intro f hf
    simp only [filterBySeverity, List.mem_filter, List.contains,
      List.elem_eq_mem, decide_eq_true_eq] at hf ⊢
    exact ⟨hf.1, key f.severity hf.2⟩

/-- C9 witness: threshold pair high/low on a two-finding list (one high from
AG-003, one medium from AG-005). -/
theorem c9_severity_filter_monotone_witness :
    filterBySeverity .high
        [mkFinding AG003 "f" [] 1 (0, 0), mkFinding AG005 "f" [] 1 (0, 0)] =
      [mkFinding AG003 "f" [] 1 (0, 0), mkFinding AG005 "f" [] 1 (0, 0)].filter
        (fun f => decide (severityRank f.severity ≤ severityRank .high)) ∧
    filterBySeverity .high (filterBySeverity .low
        [mkFinding AG003 "f" [] 1 (0, 0), mkFinding AG005 "f" [] 1 (0, 0)]) =
      filterBySeverity .high
        [mkFinding AG003 "f" [] 1 (0, 0), mkFinding AG005 "f" [] 1 (0, 0)] ∧
    (∀ f ∈ filterBySeverity .high
        [mkFinding AG003 "f" [] 1 (0, 0), mkFinding AG005 "f" [] 1 (0, 0)],
      severityRank f.severity ≤ severityRank .high) ∧
    ∀ f ∈ filterBySeverity .high
        [mkFinding AG003 "f" [] 1 (0, 0), mkFinding AG005 "f" [] 1 (0, 0)],
      f ∈ filterBySeverity .low
        [mkFinding AG003 "f" [] 1 (0, 0), mkFinding AG005 "f" [] 1 (0, 0)] :=
  c9_severity_filter_monotone .high .low
    [mkFinding AG003 "f" [] 1 (0, 0), mkFinding AG005 "f" [] 1 (0, 0)] (by decide)

/-- The findings a single rule contributes inside `scan_file`'s try/except:
its `check` result on success, nothing when its `check` raises. -/
def ruleFindings (rule : Rule) (content file_path : String) : List Finding :=
  match rule.check content file_path with
  | .ok fnd => fnd
  | .error _ => []

/-- The rule loop of `scan_file` concatenates, in registration order, the
per-rule contributions (failed rules contributing nothing). -/
theorem runRules_eq_join (rules : List Rule) (content file_path : String) :
    runRules rules content file_path =
      (rules.map (fun r => ruleFindings r content file_path)).flatten := by
  have general : ∀ (rs : List Rule) (acc : List Finding),
      rs.foldl
          (fun acc rule =>
            match rule.check content file_path with
            | .ok fnd => acc ++ fnd
            | .error _ => acc)
          acc =
        acc ++ (rs.map (fun r => ruleFindings r content file_path)).flatten := by
    intro rs
    induction rs with
    | nil => intro acc; simp
    | cons r t ih =>
      intro acc
      simp only [List.foldl_cons, List.map_cons, List.flatten_cons]
      cases h : r.check content file_path with
      | ok fnd => simp [ruleFindings, h, ih, List.append_assoc]
      | error e => simp [ruleFindings, h, ih]
  simpa using general rules []

/-- C5: if one rule's `check` raises during `scan_file` on an existing,
readable file, the exception is caught at the orchestration boundary: the
scan still completes with a `ScanResult`, the failing rule contributes zero
findings, and all other rules' findings are present in order. -/
theorem c5_rule_failure_isolated (rules₁ rules₂ : List Rule) (bad : Rule)
    (fs : FileSystem) (file_path content e : String)
    (hex : fs.pathExists file_path = true)
    (hread : fs.readText file_path = .ok content)
    (hbad : bad.check content file_path = .error e) :
    ∃ res, scan_file (rules₁ ++ bad :: rules₂) fs file_path = .ok res ∧
      res.findings =
        runRules rules₁ content file_path ++ runRules rules₂ content file_path := by
  refine ⟨⟨file_path, runRules (rules₁ ++ bad :: rules₂) content file_path⟩,
    by simp [scan_file, hex, hread], ?_⟩
  simp only [runRules_eq_join]
  simp [ruleFindings, hbad]

/-- C5 witness: a raising rule between AG-001 and AG-005 on a readable
file. -/
theorem c5_rule_failure_isolated_witness :
    ∃ res,
      scan_file ([AG001.toRule] ++ Rule.mk "BAD" (fun _ _ => .error "boom") :: [AG005.toRule])
          (FileSystem.mk (fun p => p == "cfg.yaml")
            (fun p => if p == "cfg.yaml" then .ok "fetch(" else .error "unreadable")
            (fun _ => []))
          "cfg.yaml" = .ok res ∧
      res.findings =
        runRules [AG001.toRule] "fetch(" "cfg.yaml" ++
          runRules [AG005.toRule] "fetch(" "cfg.yaml" :=
  c5_rule_failure_isolated [AG001.toRule] [AG005.toRule]
    (Rule.mk "BAD" (fun _ _ => .error "boom"))
    (FileSystem.mk (fun p => p == "cfg.yaml")
      (fun p => if p == "cfg.yaml" then .ok "fetch(" else .error "unreadable")
      (fun _ => []))
    "cfg.yaml" "fetch(" "boom" (by decide) rfl rfl

/-- C6: `scan_file` on a nonexistent path fails with the not-found error and
produces no `ScanResult`; on a path that exists and is readable it returns a
`ScanResult` (in particular no not-found error is raised). -/
theorem c6_scan_file_notfound (rules : List Rule) (fs : FileSystem) (p : String) :
    (fs.pathExists p = false →
      scan_file rules fs p = .error (.notFound ("File not found: " ++ p))) ∧
    (fs.pathExists p = true →
      ∀ content, fs.readText p = .ok content →
        ∃ res, scan_file rules fs p = .ok res ∧
          ∀ e, scan_file rules fs p ≠ .error e) := by
  constructor
  · intro h; simp [scan_file, h]
  · intro h content hc
    exact ⟨⟨p, runRules rules content p⟩, by simp [scan_file, h, hc],
      by simp [scan_file, h, hc]⟩

/-- C6 witness: one missing path and one existing readable path on a
concrete filesystem. -/
theorem c6_scan_file_notfound_witness :
    scan_file [] (FileSystem.mk (fun p => p == "ok.py")
        (fun p => if p == "ok.py" then .ok "" else .error "io") (fun _ => []))
        "missing.py" = .error (.notFound ("File not found: " ++ "missing.py")) ∧
    ∃ res, scan_file [] (FileSystem.mk (fun p => p == "ok.py")
        (fun p => if p == "ok.py" then .ok "" else .error "io") (fun _ => []))
        "ok.py" = .ok res ∧
      ∀ e, scan_file [] (FileSystem.mk (fun p => p == "ok.py")
        (fun p => if p == "ok.py" then .ok "" else .error "io") (fun _ => []))
        "ok.py" ≠ .error e :=
  ⟨(c6_scan_file_notfound [] _ "missing.py").1 (by decide),
   (c6_scan_file_notfound [] _ "ok.py").2 (by decide) "" rfl⟩

/-- `scan_directory` is the per-file try/except loop: it scans, in traversal
order, exactly the regular files with an eligible extension, keeping the
`ScanResult`s of the successful `scan_file` calls and skipping the failed
ones. -/
theorem scan_directory_eq_filterMap (rules : List Rule) (fs : FileSystem)
    (directory : String) :
    scan_directory rules fs directory =
      ((fs.rglob directory).filter eligibleEntry).filterMap
        (fun e => (scan_file rules fs e.path).toOption) := by
  unfold scan_directory
  have general : ∀ (entries : List DirEntry) (acc : List ScanResult),
      entries.foldl
          (fun results e =>
            if eligibleEntry e then
              match scan_file rules fs e.path with
              | .ok r => results ++ [r]
              | .error _ => results
            else results)
          acc =
        acc ++ (entries.filter eligibleEntry).filterMap
          (fun e => (scan_file rules fs e.path).toOption) := by
    intro entries
    induction entries with
    | nil => intro acc; simp
    | cons e t ih =>
      intro acc
      simp only [List.foldl_cons, List.filter_cons]
      by_cases he : eligibleEntry e
      · cases hs : scan_file rules fs e.path with
        | ok r =>
          simp [he, hs, List.filterMap_cons, Except.toOption, ih, List.append_assoc]
        | error err =>
          simp [he, hs, List.filterMap_cons, Except.toOption, ih]
      · simp [he, ih]
  simpa using general (fs.rglob directory) []

/-- C7: `scan_directory` scans exactly the regular files of the recursive
listing whose extension is one of `.yaml`, `.yml`, `.json`, `.py`, catching
per-file errors, so a directory listing with one unreadable eligible file
and one clean eligible file yields exactly the clean file's `ScanResult`
and no error escapes. -/
theorem c7_directory_skips_bad_file (rules : List Rule) (fs : FileSystem)
    (directory : String) (bad good : DirEntry) (e : ScanError)
    (hent : fs.rglob directory = [bad, good])
    (hbe : eligibleEntry bad = true) (hge : eligibleEntry good = true)
    (hbad : scan_file rules fs bad.path = .error e)
    (hgood : ∃ r, scan_file rules fs good.path = .ok r) :
    scan_directory rules fs directory =
      ((fs.rglob directory).filter eligibleEntry).filterMap
        (fun en => (scan_file rules fs en.path).toOption) ∧
    ∃ r, scan_file rules fs good.path = .ok r ∧
      scan_directory rules fs directory = [r] := by
  obtain ⟨r, hr⟩ := hgood
  refine ⟨scan_directory_eq_filterMap rules fs directory, r, hr, ?_⟩
  rw [scan_directory_eq_filterMap, hent]
  simp [List.filter_cons, hbe, hge, List.filterMap_cons, hbad, hr, Except.toOption]

/-- C7 witness: a two-entry directory with one unreadable and one clean
`.yaml` file. -/
theorem c7_directory_skips_bad_file_witness :
    scan_directory []
        (FileSystem.mk (fun _ => true)
          (fun p => if p == "d/good.yaml" then .ok "" else .error "unreadable")
          (fun d => if d == "d"
            then [DirEntry.mk "d/bad.yaml" true, DirEntry.mk "d/good.yaml" true]
            else []))
        "d" =
      (((FileSystem.mk (fun _ => true)
          (fun p => if p == "d/good.yaml" then .ok "" else .error "unreadable")
          (fun d => if d == "d"
            then [DirEntry.mk "d/bad.yaml" true, DirEntry.mk "d/good.yaml" true]
            else [])).rglob "d").filter eligibleEntry).filterMap
        (fun en => (scan_file []
          (FileSystem.mk (fun _ => true)
            (fun p => if p == "d/good.yaml" then .ok "" else .error "unreadable")
            (fun d => if d == "d"
              then [DirEntry.mk "d/bad.yaml" true, DirEntry.mk "d/good.yaml" true]
              else []))
          en.path).toOption) ∧
    ∃ r, scan_file []
        (FileSystem.mk (fun _ => true)
          (fun p => if p == "d/good.yaml" then .ok "" else .error "unreadable")
          (fun d => if d == "d"
            then [DirEntry.mk "d/bad.yaml" true, DirEntry.mk "d/good.yaml" true]
            else []))
        "d/good.yaml" = .ok r ∧
      scan_directory []
        (FileSystem.mk (fun _ => true)
          (fun p => if p == "d/good.yaml" then .ok "" else .error "unreadable")
          (fun d => if d == "d"
            then [DirEntry.mk "d/bad.yaml" true, DirEntry.mk "d/good.yaml" true]
            else []))
        "d" = [r] :=
  c7_directory_skips_bad_file []
    (FileSystem.mk (fun _ => true)
      (fun p => if p == "d/good.yaml" then .ok "" else .error "unreadable")
      (fun d => if d == "d"
        then [DirEntry.mk "d/bad.yaml" true, DirEntry.mk "d/good.yaml" true]
        else []))
    "d" (DirEntry.mk "d/bad.yaml" true) (DirEntry.mk "d/good.yaml" true)
    (.readError "unreadable") rfl (by decide) (by decide) rfl
    ⟨ScanResult.mk "d/good.yaml" [], rfl⟩

/-- One-step unfolding of the finditer loop. -/
theorem finditerAux_succ (r : RE) (fuel : Nat) (s : List Char) (pos : Nat) :
    finditerAux r (fuel + 1) s pos =
      match reMatch r s some, s with
      | some _, [] => [(pos, pos)]
      | some rest, c :: t =>
        if (c :: t).length - rest.length = 0 then
          (pos, pos) :: finditerAux r fuel t (pos + 1)
        else
          (pos, pos + ((c :: t).length - rest.length)) ::
            finditerAux r fuel ((c :: t).drop ((c :: t).length - rest.length))
              (pos + ((c :: t).length - rest.length))
      | none, [] => []
      | none, _ :: t => finditerAux r fuel t (pos + 1) := rfl

/-- Every match reported by the finditer loop starts at or after the current
scan position. -/
theorem finditerAux_start_ge (r : RE) :
    ∀ (fuel : Nat) (s : List Char) (pos : Nat) (m : Nat × Nat),
      m ∈ finditerAux r fuel s pos → pos ≤ m.1 := by
  intro fuel
  induction fuel with
  | zero => intro s pos m h; simp [finditerAux] at h
  | succ n ih =>
    intro s pos m h
    rw [finditerAux_succ] at h
    split at h
    · rcases List.mem_singleton.mp h with rfl
      exact Nat.le_refl pos
    · split at h
      · rcases List.mem_cons.mp h with rfl | h
        · exact Nat.le_refl pos
        · exact Nat.le_of_succ_le (ih _ _ _ h)
      · rcases List.mem_cons.mp h with rfl | h
        · exact Nat.le_refl pos
        · exact Nat.le_trans (Nat.le_add_right _ _) (ih _ _ _ h)
    · simp at h
    · exact Nat.le_of_succ_le (ih _ _ _ h)

/-- The matches of one finditer pass have strictly increasing start
offsets (left to right, non-overlapping resumption). -/
theorem finditerAux_starts_sorted (r : RE) :
    ∀ (fuel : Nat) (s : List Char) (pos : Nat),
      (finditerAux r fuel s pos).Pairwise (fun a b => a.1 < b.1) := by
  intro fuel
  induction fuel with
  | zero => intro s pos; simp [finditerAux]
  | succ n ih =>
    intro s pos
    rw [finditerAux_succ]
    split
    · simp
    · split
      · refine List.pairwise_cons.mpr ⟨?_, ih _ _⟩
        intro b hb
        exact Nat.lt_of_succ_le (finditerAux_start_ge r n _ _ b hb)
      · refine List.pairwise_cons.mpr ⟨?_, ih _ _⟩
        intro b hb
        have h1 := finditerAux_start_ge r n _ _ b hb
        omega
    · simp
    · exact ih _ _

/-- The deterministic order of findings within one file: by line number top
to bottom, then by column left to right within a line. -/
def FindingOrder (f g : Finding) : Prop :=
  f.line_number < g.line_number ∨
    (f.line_number = g.line_number ∧ f.column < g.column)

/-- The findings of one rule over one content are ordered by line number and
then by column. -/
theorem checkLines_pairwise (r : PatternRule) (fp : String) :
    ∀ (lines : List (List Char)) (n : Nat),
      (checkLines r fp lines n).Pairwise FindingOrder := by
  intro lines
  induction lines with
  | nil => intro n; simp [checkLines]
  | cons line rest ih =>
    intro n
    rw [checkLines, List.pairwise_append]
    refine ⟨?_, ih (n + 1), ?_⟩
    · exact List.Pairwise.map _
        (fun a b hab => Or.inr ⟨rfl, Nat.add_lt_add_right hab 1⟩)
        (finditerAux_starts_sorted r.pattern _ _ _)
    · intro f hf g hg
      rw [List.mem_map] at hf
      obtain ⟨m, _, rfl⟩ := hf
      obtain ⟨j, line', m', _, _, rfl⟩ := mem_checkLines hg
      exact Or.inl (show n < n + 1 + j by omega)

/-- C8: for a scanner whose rules are pattern rules (as the built-in
registry is), a successful `scan_file` returns findings that are the
concatenation, in registry order, of the per-rule finding lists, and each
rule's own list is ordered by line number top to bottom and by column left
to right within a line. -/
theorem c8_findings_ordered (prs : List PatternRule) (fs : FileSystem)
    (file_path content : String)
    (hex : fs.pathExists file_path = true)
    (hread : fs.readText file_path = .ok content) :
    ∃ result, scan_file (prs.map PatternRule.toRule) fs file_path = .ok result ∧
      result.findings = (prs.map (fun r => r.check content file_path)).flatten ∧
      ∀ r ∈ prs, (r.check content file_path).Pairwise FindingOrder := by
  refine ⟨⟨file_path, runRules (prs.map PatternRule.toRule) content file_path⟩,
    by simp [scan_file, hex, hread], ?_, ?_⟩
  · show runRules _ _ _ = _
    rw [runRules_eq_join, List.map_map]
    rfl
  · intro r _
    exact checkLines_pairwise r file_path (splitLines content.data) 1

/-- C8 witness: the built-in registry on a concrete readable file. -/
theorem c8_findings_ordered_witness :
    ∃ result,
      scan_file (RULES.map PatternRule.toRule)
          (FileSystem.mk (fun _ => true) (fun _ => .ok "fetch( http://a")
            (fun _ => []))
          "w.py" = .ok result ∧
      result.findings =
        (RULES.map (fun r => r.check "fetch( http://a" "w.py")).flatten ∧
      ∀ r ∈ RULES, (r.check "fetch( http://a" "w.py").Pairwise FindingOrder :=
  c8_findings_ordered RULES
    (FileSystem.mk (fun _ => true) (fun _ => .ok "fetch( http://a") (fun _ => []))
    "w.py" "fetch( http://a" (by decide) rfl

/-- `Char.toNat` is injective. -/
theorem char_eq_of_toNat_eq {a b : Char} (h : a.toNat = b.toNat) : a = b := by
  have h2 := congrArg Char.ofNat h
  rwa [Char.ofNat_toNat, Char.ofNat_toNat] at h2

/-- Character equality is code-point equality. -/
theorem char_eq_iff_toNat {a b : Char} : a = b ↔ a.toNat = b.toNat :=
  ⟨congrArg Char.toNat, char_eq_of_toNat_eq⟩

/-- `Char.ofNat` is a left inverse of `Char.toNat` below the surrogate
range. -/
theorem toNat_ofNat_of_lt {n : Nat} (h : n < 55296) : (Char.ofNat n).toNat = n := by
  have hv : n.isValidChar := Or.inl h
  unfold Char.ofNat
  rw [dif_pos hv]
  simp [Char.ofNatAux, Char.toNat, UInt32.toNat]

/-- Code point of `swapCase` in terms of the input's code point. -/
theorem toNat_swapCase (c : Char) :
    (swapCase c).toNat =
      if 65 ≤ c.toNat ∧ c.toNat ≤ 90 then c.toNat + 32
      else if 97 ≤ c.toNat ∧ c.toNat ≤ 122 then c.toNat - 32
      else c.toNat := by
  unfold swapCase isUpperA isLowerA
  split_ifs with h1 h2 h3 h4 h5 h6 <;>
    simp only [Bool.and_eq_true, decide_eq_true_eq] at * <;>
    first
      | omega
      | (rw [toNat_ofNat_of_lt (by omega)])

/-- Code point of `lcAscii` in terms of the input's code point. -/
theorem toNat_lcAscii (c : Char) :
    (lcAscii c).toNat =
      if 65 ≤ c.toNat ∧ c.toNat ≤ 90 then c.toNat + 32 else c.toNat := by
  unfold lcAscii isUpperA
  split_ifs with h1 h2 h3 <;>
    simp only [Bool.and_eq_true, decide_eq_true_eq] at * <;>
    first
      | omega
      | (rw [toNat_ofNat_of_lt (by omega)])

/-- `swapCase` is an involution. -/
theorem swapCase_swapCase (c : Char) : swapCase (swapCase c) = c := by
  apply char_eq_of_toNat_eq
  rw [toNat_swapCase, toNat_swapCase]
  split_ifs <;> omega

/-- Solving `swapCase x = d` for `x`. -/
theorem swapCase_eq_iff {x d : Char} : swapCase x = d ↔ x = swapCase d := by
  constructor
  · intro h; rw [← h, swapCase_swapCase]
  · intro h; rw [h, swapCase_swapCase]

/-- ASCII case folding is invariant under swapping the case of the input. -/
theorem lcAscii_swapCase (c : Char) : lcAscii (swapCase c) = lcAscii c := by
  apply char_eq_of_toNat_eq
  rw [toNat_lcAscii, toNat_lcAscii, toNat_swapCase]
  split_ifs <;> omega

/-- A character class is case-insensitive when it cannot distinguish a
character from its case-swapped form. -/
def CIpred (p : Char → Bool) : Prop := ∀ c, p (swapCase c) = p c

/-- All character classes of a regex are case-insensitive. -/
def CI : RE → Prop
  | .eps => True
  | .cls p => CIpred p
  | .starCls p => CIpred p
  | .seq a b => CI a ∧ CI b
  | .alt a b => CI a ∧ CI b

/-- The class of a case-folded literal character is case-insensitive. -/
theorem ciPred_ichar (d : Char) : CIpred (fun x => lcAscii x = lcAscii d) := by
  intro c
  simp [lcAscii_swapCase]

/-- `[=:]` is case-insensitive. -/
theorem ciPred_eqColon : CIpred (fun c => c = '=' || c = ':') := by
  intro x
  have h1 : swapCase '=' = '=' := by decide
  have h2 : swapCase ':' = ':' := by decide
  simp only [swapCase_eq_iff, h1, h2]

/-- `["\']` is case-insensitive. -/
theorem ciPred_quote : CIpred (fun c => c = '"' || c = '\'') := by
  intro x
  have h1 : swapCase '"' = '"' := by decide
  have h2 : swapCase '\'' = '\'' := by decide
  simp only [swapCase_eq_iff, h1, h2]

/-- `\s` is case-insensitive. -/
theorem ciPred_isPySpace : CIpred isPySpace := by
  intro x
  have h1 : swapCase ' ' = ' ' := by decide
  have h2 : swapCase '\t' = '\t' := by decide
  have h3 : swapCase '\n' = '\n' := by decide
  have h4 : swapCase '\r' = '\r' := by decide
  have h5 : swapCase '\x0b' = '\x0b' := by decide
  have h6 : swapCase '\x0c' = '\x0c' := by decide
  simp only [isPySpace, swapCase_eq_iff, h1, h2, h3, h4, h5, h6]

/-- `.` is case-insensitive. -/
theorem ciPred_dot : CIpred dotChar := by
  intro x
  have h : swapCase '\n' = '\n' := by decide
  simp only [dotChar, swapCase_eq_iff, h]

/-- `[_-]` is case-insensitive. -/
theorem ciPred_underscoreDash : CIpred (fun c => c = '_' || c = '-') := by
  intro x
  have h1 : swapCase '_' = '_' := by decide
  have h2 : swapCase '-' = '-' := by decide
  simp only [swapCase_eq_iff, h1, h2]

/-- `[a-zA-Z0-9_-]` is case-insensitive. -/
theorem ciPred_wordDash : CIpred wordDashChar := by
  intro x
  rw [Bool.eq_iff_iff]
  simp only [wordDashChar, isLowerA, isUpperA, isDigitA, Bool.or_eq_true,
    Bool.and_eq_true, decide_eq_true_eq, char_eq_iff_toNat]
  have h1 : ('_').toNat = 95 := by decide
  have h2 : ('-').toNat = 45 := by decide
  rw [h1, h2, toNat_swapCase]
  split_ifs <;> omega

/-- Greedy-reach counting cannot tell a case-swapped line apart when the
class is case-insensitive. -/
theorem countWhile_map_swapCase {p : Char → Bool} (hp : CIpred p) :
    ∀ s : List Char, countWhile p (s.map swapCase) = countWhile p s := by
  intro s
  induction s with
  | nil => rfl
  | cons c t ih => simp [countWhile, hp c, ih]

/-- Star backtracking over a case-swapped line is star backtracking over the
original line with a case-swapping continuation. -/
theorem tryDrops_map_swapCase (k : List Char → Option (List Char)) (s : List Char) :
    ∀ n, tryDrops k (s.map swapCase) n =
      tryDrops (fun t => k (t.map swapCase)) s n := by
  intro n
  induction n with
  | zero => rfl
  | succ m ih => simp [tryDrops, ih, List.map_drop]

/-- The matcher commutes with case swapping of the input when every class of
the regex is case-insensitive. -/
theorem reMatch_map_swapCase :
    ∀ (r : RE), CI r → ∀ (s : List Char) (k : List Char → Option (List Char)),
      reMatch r (s.map swapCase) k = reMatch r s (fun t => k (t.map swapCase)) := by
  intro r
  induction r with
  | eps => intro _ s k; rfl
  | cls p =>
    intro hp s k
    cases s with
    | nil => rfl
    | cons c t => simp [reMatch, hp c]
  | starCls p =>
    intro hp s k
    simp only [reMatch]
    rw [countWhile_map_swapCase hp, tryDrops_map_swapCase]
  | seq a b iha ihb =>
    intro hab s k
    simp only [reMatch]
    rw [iha hab.1]
    exact congrArg (reMatch a s) (funext fun t => ihb hab.2 t k)
  | alt a b iha ihb =>
    intro hab s k
    simp only [reMatch]
    rw [iha hab.1, ihb hab.2]

/-- Success of a thunked `orElse` is the disjunction of each side's
success. -/
theorem isSome_orElse (a b : Option (List Char)) :
    (a.orElse fun _ => b).isSome = (a.isSome || b.isSome) := by
  cases a <;> simp [Option.orElse]

/-- Whether star backtracking succeeds only depends on whether the
continuation succeeds. -/
theorem tryDrops_isSome_congr (k h : List Char → Option (List Char))
    (hkk : ∀ t, (k t).isSome = (h t).isSome) (s : List Char) :
    ∀ n, (tryDrops k s n).isSome = (tryDrops h s n).isSome := by
  intro n
  induction n with
  | zero => exact hkk s
  | succ m ih => simp [tryDrops, isSome_orElse, hkk, ih]

/-- Whether the matcher succeeds only depends on whether the continuation
succeeds. -/
theorem reMatch_isSome_congr :
    ∀ (r : RE) (s : List Char) (k h : List Char → Option (List Char)),
      (∀ t, (k t).isSome = (h t).isSome) →
      (reMatch r s k).isSome = (reMatch r s h).isSome := by
  intro r
  induction r with
  | eps => intro s k h hkk; exact hkk s
  | cls p =>
    intro s k h hkk
    cases s with
    | nil => rfl
    | cons c t => by_cases hc : p c <;> simp [reMatch, hc, hkk]
  | starCls p =>
    intro s k h hkk
    exact tryDrops_isSome_congr k h hkk s _
  | seq a b iha ihb =>
    intro s k h hkk
    exact iha s _ _ (fun t => ihb t _ _ hkk)
  | alt a b iha ihb =>
    intro s k h hkk
    simp only [reMatch]
    rw [isSome_orElse, isSome_orElse, iha s k h hkk, ihb s k h hkk]

/-- A pattern matches at offset `i` of a line when a match starts at that
0-based character offset (i.e. the matcher succeeds on the suffix). -/
def matchesAt (r : RE) (line : List Char) (i : Nat) : Bool :=
  (reMatch r (line.drop i) some).isSome

/-- A sequence of case-insensitive regexes is case-insensitive. -/
theorem ci_seqs {l : List RE} (h : ∀ r ∈ l, CI r) : CI (seqs l) := by
  induction l with
  | nil => trivial
  | cons a t ih =>
    exact ⟨h a (List.mem_cons_self a t),
      ih fun r hr => h r (List.mem_cons_of_mem a hr)⟩

/-- An alternation of case-insensitive regexes is case-insensitive. -/
theorem ci_alts {l : List RE} (h : ∀ r ∈ l, CI r) : CI (alts l) := by
  induction l with
  | nil => exact fun c => rfl
  | cons a t ih =>
    exact ⟨h a (List.mem_cons_self a t),
      ih fun r hr => h r (List.mem_cons_of_mem a hr)⟩

/-- Case-insensitive literals are case-insensitive regexes. -/
theorem ci_istr (s : String) : CI (istr s) := by
  apply ci_seqs
  intro r hr
  rw [List.mem_map] at hr
  obtain ⟨c, _, rfl⟩ := hr
  exact ciPred_ichar c

/-- AG-001's pattern is case-insensitive. -/
theorem ci_AG001 : CI AG001.pattern := by
  apply ci_seqs
  intro r hr
  simp only [AG001, List.mem_cons, List.not_mem_nil, or_false] at hr
  rcases hr with rfl | rfl | rfl | rfl | rfl | rfl | rfl
  · refine ci_alts ?_
    intro q hq
    simp only [List.mem_cons, List.not_mem_nil, or_false] at hq
    rcases hq with rfl | rfl | rfl <;> exact ci_istr _
  · exact ciPred_isPySpace
  · exact ciPred_eqColon
  · exact ciPred_isPySpace
  · exact ciPred_quote
  · exact ciPred_dot
  · refine ci_alts ?_
    intro q hq
    simp only [List.mem_cons, List.not_mem_nil, or_false] at hq
    rcases hq with rfl | rfl | rfl | rfl | rfl | rfl <;> exact ci_istr _

/-- AG-002's pattern is case-insensitive. -/
theorem ci_AG002 : CI AG002.pattern := by
  apply ci_seqs
  intro r hr
  simp only [AG002, List.mem_cons, List.not_mem_nil, or_false] at hr
  rcases hr with rfl | rfl | rfl | rfl | rfl | rfl | rfl | rfl
  · refine ci_alts ?_
    intro q hq
    simp only [List.mem_cons, List.not_mem_nil, or_false] at hq
    rcases hq with rfl | rfl | rfl | rfl | rfl
    · refine ci_seqs ?_
      intro w hw
      simp only [List.mem_cons, List.not_mem_nil, or_false] at hw
      rcases hw with rfl | rfl | rfl
      · exact ci_istr _
      · exact ⟨ciPred_underscoreDash, trivial⟩
      · exact ci_istr _
    · exact ci_istr _
    · exact ci_istr _
    · exact ci_istr _
    · exact ci_istr _
  · exact ciPred_isPySpace
  · exact ciPred_eqColon
  · exact ciPred_isPySpace
  · exact ciPred_quote
  · refine ci_seqs ?_
    intro q hq
    rw [List.eq_of_mem_replicate hq]
    exact ciPred_wordDash
  · exact ciPred_wordDash
  · exact ciPred_quote

/-- AG-003's pattern is case-insensitive. -/
theorem ci_AG003 : CI AG003.pattern := by
  apply ci_alts
  intro r hr
  simp only [AG003, List.mem_cons, List.not_mem_nil, or_false] at hr
  rcases hr with rfl | rfl | rfl | rfl
  · exact ci_istr _
  · exact ci_istr _
  · refine ci_seqs ?_
    intro q hq
    simp only [List.mem_cons, List.not_mem_nil, or_false] at hq
    rcases hq with rfl | rfl | rfl
    · exact ci_istr _
    · exact ciPred_dot
    · exact ci_istr _
  · refine ci_seqs ?_
    intro q hq
    simp only [List.mem_cons, List.not_mem_nil, or_false] at hq
    rcases hq with rfl | rfl | rfl
    · exact ci_istr _
    · exact ciPred_dot
    · exact ci_istr _

/-- AG-004's pattern is case-insensitive. -/
theorem ci_AG004 : CI AG004.pattern := by
  apply ci_alts
  intro r hr
  simp only [AG004, List.mem_cons, List.not_mem_nil, or_false] at hr
  rcases hr with rfl | rfl | rfl
  · refine ci_seqs ?_
    intro q hq
    simp only [List.mem_cons, List.not_mem_nil, or_false] at hq
    rcases hq with rfl | rfl | rfl | rfl | rfl
    · refine ci_alts ?_
      intro w hw
      simp only [List.mem_cons, List.not_mem_nil, or_false] at hw
      rcases hw with rfl | rfl | rfl <;> exact ci_istr _
    · exact ciPred_isPySpace
    · exact ciPred_eqColon
    · exact ciPred_isPySpace
    · exact ci_istr _
  · exact ci_istr _
  · exact ci_istr _

/-- AG-005's pattern is case-insensitive. -/
theorem ci_AG005 : CI AG005.pattern := by
  apply ci_alts
  intro r hr
  simp only [AG005, List.mem_cons, List.not_mem_nil, or_false] at hr
  rcases hr with rfl | rfl | rfl | rfl | rfl <;> exact ci_istr _

/-- Every built-in rule's pattern is case-insensitive. -/
theorem ci_rules (r : PatternRule) (hr : r ∈ RULES) : CI r.pattern := by
  simp only [RULES, List.mem_cons, List.not_mem_nil, or_false] at hr
  rcases hr with rfl | rfl | rfl | rfl | rfl
  · exact ci_AG001
  · exact ci_AG002
  · exact ci_AG003
  · exact ci_AG004
  · exact ci_AG005

/-- C3: for every built-in rule, pattern matching is case-insensitive: the
pattern matches at a given offset of a line exactly when it matches at the
same offset of the line with every ASCII letter's case swapped. -/
theorem c3_match_case_insensitive (r : PatternRule) (hr : r ∈ RULES)
    (line : List Char) (i : Nat) :
    matchesAt r.pattern line i = matchesAt r.pattern (line.map swapCase) i := by
  have hci : CI r.pattern := ci_rules r hr
  unfold matchesAt
  rw [← List.map_drop, reMatch_map_swapCase r.pattern hci]
  exact reMatch_isSome_congr r.pattern (line.drop i) some
    (fun t => some (t.map swapCase)) (fun t => rfl)

/-- C3 witness: AG-001 on the all-caps prompt-injection line at offset 0. -/
theorem c3_match_case_insensitive_witness :
    matchesAt AG001.pattern "SYSTEM_PROMPT = \"Hello \x7buser_input\x7d\"".data 0 =
      matchesAt AG001.pattern
        ("SYSTEM_PROMPT = \"Hello \x7buser_input\x7d\"".data.map swapCase) 0 :=
  c3_match_case_insensitive AG001
    (by unfold RULES; exact List.mem_cons_self _ _)
    "SYSTEM_PROMPT = \"Hello \x7buser_input\x7d\"".data 0
